import Mathlib

/-!
Shallow embedding of the `gitlab-search-cli` search pipeline
(`src/main.rs`): the paged project lister (`get_projects`), the blob
search client (`search_project_blobs`, abstracted as a backend
function), the project resolver and the concurrent search orchestrator
(both inlined in `handle_search_command` in the source).

Network I/O is abstracted by backend functions; the page loop of
`get_projects` is given explicit fuel (`none` = the loop has not yet
terminated within the fuel bound).  The per-task closures of the
orchestrator mutate the shared `Arc<Mutex<Vec<_>>>` only inside a
single critical section (the `MutexGuard` is held across the whole
push loop), so a run of the orchestrator is determined by the order in
which tasks reach their critical section: runs are indexed by a
completion-order permutation of the task indices.
-/

/-- Embeds `struct Namespace` of `main.rs`.  The field `namespace` of
`Project` is named `namespace_field` because `namespace` is a Lean
keyword (the source itself uses the same trick for `ref` via
`ref_field`). -/
structure GLNamespace where
  id : Nat
  name : String
  path : String
  kind : String
  full_path : String
  parent_id : Option Nat
  web_url : String
deriving DecidableEq, Repr

/-- Embeds `struct Project` of `main.rs`. -/
structure Project where
  id : Nat
  description : Option String
  name : String
  name_with_namespace : String
  path : String
  path_with_namespace : String
  created_at : String
  web_url : String
  last_activity_at : String
  namespace_field : GLNamespace
deriving DecidableEq, Repr

/-- Embeds `struct SearchResultRaw` of `main.rs` (the JSON shape
returned by the blob-search endpoint; `ref` is renamed `ref_field` as
in the source). -/
structure SearchResultRaw where
  basename : String
  data : String
  path : String
  filename : String
  id : Option Nat
  ref_field : String
  startline : Nat
  project_id : Nat
deriving DecidableEq, Repr

/-- One page request issued by `get_projects`: the `archived`, `per_page`
and `page` query parameters it sends (the constant parameters `simple`,
`order_by=id`, `membership=true` are omitted). -/
structure ListRequest where
  archived : Bool
  per_page : Nat
  page : Nat
deriving DecidableEq, Repr

/-- Response of the remote listing endpoint to one page request:
either a JSON list of projects or an HTTP/transport error. -/
inductive PageResponse where
  | ok (projects : List Project)
  | err (msg : String)
deriving DecidableEq, Repr

/-- A listing backend: what the remote end returns for each page request. -/
def ListingBackend : Type := ListRequest → PageResponse

/-- A search backend: what `search_project_blobs` yields for a given
project id and query (success with a server-ordered match list, or an
HTTP/transport error for that project only). -/
def SearchBackend : Type := Nat → String → Except String (List SearchResultRaw)

/-- Rust `str::parse::<u64>`: an optional leading `+` sign followed by
one or more ASCII digits, with the value required to fit in 64 bits.
Returns `none` exactly when Rust returns `Err`. -/
def parse_u64 (s : String) : Option Nat :=
  let cs := s.toList
  let ds := match cs with
    | '+' :: rest => rest
    | other => other
  if ds.isEmpty then none
  else if ds.all Char.isDigit then
    let n := ds.foldl (fun acc c => acc * 10 + (c.toNat - 48)) 0
    if n < 2 ^ 64 then some n else none
  else none

/-- The page loop of `get_projects` (`main.rs:199-222`), with explicit
fuel.  Returns `none` when the loop has not terminated within `fuel`
iterations, otherwise the result of the loop together with the list of
page requests issued. -/
def get_projects_loop (backend : ListingBackend) (include_archived : Bool)
    (per_page : Nat) (fuel page : Nat) (acc : List Project)
    (reqs : List ListRequest) :
    Option (Except String (List Project) × List ListRequest) :=
  match fuel with
  | 0 => none
  | fuel' + 1 =>
    let req : ListRequest := ⟨include_archived, per_page, page⟩
    match backend req with
    | .err e => some (.error e, reqs ++ [req])
    | .ok projects =>
      if projects.isEmpty then some (.ok acc, reqs ++ [req])
      else
        get_projects_loop backend include_archived per_page fuel' (page + 1)
          (acc ++ projects) (reqs ++ [req])

/-- Embeds `get_projects` (`main.rs:190-225`): request pages of size 50
starting at page 1 and accumulate until the first empty page. -/
def get_projects (backend : ListingBackend) (include_archived : Bool)
    (fuel : Nat) : Option (Except String (List Project) × List ListRequest) :=
  get_projects_loop backend include_archived 50 fuel 1 [] []

/-- The synthetic project built on the numeric resolver path
(`main.rs:401-420`): only `id` carries the parsed value; every
name/path field is the identifier string itself and the remaining
fields are empty. -/
def synthetic_project (project_id_or_path : String) (project_id : Nat) :
    Project :=
  { id := project_id
    description := none
    name := project_id_or_path
    name_with_namespace := project_id_or_path
    path := project_id_or_path
    path_with_namespace := project_id_or_path
    created_at := ""
    web_url := ""
    last_activity_at := ""
    namespace_field :=
      { id := 0
        name := ""
        path := ""
        kind := ""
        full_path := ""
        parent_id := none
        web_url := "" } }

/-- The project-resolution block of `handle_search_command`
(`main.rs:399-435`): numeric identifiers yield one synthetic project
with no listing call; other identifiers are matched exactly against
`path_with_namespace` of the unarchived listing; `--all-projects`
returns the whole unarchived listing; otherwise a usage error.
The second component records every page request issued. -/
def resolve_projects (backend : ListingBackend) (fuel : Nat)
    (project : Option String) (all_projects : Bool) :
    Option (Except String (List Project) × List ListRequest) :=
  match project with
  | some project_id_or_path =>
    match parse_u64 project_id_or_path with
    | some project_id =>
      some (.ok [synthetic_project project_id_or_path project_id], [])
    | none =>
      match get_projects backend false fuel with
      | none => none
      | some (.error e, reqs) => some (.error e, reqs)
      | some (.ok all, reqs) =>
        some (.ok (all.filter fun p =>
          p.path_with_namespace == project_id_or_path), reqs)
  | none =>
    if all_projects then get_projects backend false fuel
    else
      some (.error
        ("You must specify a project with --project or use --all-projects to search in all projects"),
        [])

/-- Shared state of the orchestrator run: the `Arc<Mutex<Vec<_>>>`
results collection, the lines printed to stderr by failed tasks, and
the progress-bar counter. -/
structure RunState where
  results : List (String × SearchResultRaw)
  errors : List String
  completed : Nat
deriving DecidableEq, Repr

/-- The body of one search task (`main.rs:462-476`): on success push
every match, paired with the project's display name, into the shared
results collection while holding the mutex; on failure print one line
to stderr; in both cases advance the progress counter. -/
def run_task (backend : SearchBackend) (query : String) (p : Project)
    (st : RunState) : RunState :=
  match backend p.id query with
  | .ok project_results =>
    { st with
      results := st.results ++
        project_results.map (fun r => (p.name_with_namespace, r))
      completed := st.completed + 1 }
  | .error e =>
    { st with
      errors := st.errors ++
        ["Error searching in project " ++ p.name_with_namespace ++ ": " ++ e]
      completed := st.completed + 1 }

/-- The fan-out/fan-in of `handle_search_command` (`main.rs:452-480`):
one task per resolved project, all joined.  Because each task touches
the shared state in a single critical section, a run is the fold of
the task bodies over the completion order, a permutation of the task
indices. -/
def run_tasks (backend : SearchBackend) (query : String)
    (projects : List Project) (order : List Nat) : RunState :=
  order.foldl
    (fun st i =>
      match projects[i]? with
      | some p => run_task backend query p st
      | none => st)
    ⟨[], [], 0⟩

/-- Embeds `handle_search_command` from project resolution onwards
(`main.rs:399-503`), with the scheduler's completion order as an
explicit parameter.  `.ok` corresponds to `Ok(())`, hence process exit
status zero in `main`; `.error` to a fatal error and non-zero exit. -/
def handle_search_command (lister : ListingBackend)
    (searcher : SearchBackend) (fuel : Nat) (query : String)
    (project : Option String) (all_projects : Bool) (order : List Nat) :
    Option (Except String RunState) :=
  match resolve_projects lister fuel project all_projects with
  | none => none
  | some (.error e, _) => some (.error e)
  | some (.ok projects_to_search, _) =>
    if projects_to_search.isEmpty then
      some (.error ("No projects found to search in"))
    else some (.ok (run_tasks searcher query projects_to_search order))

/-- The success block contributed by task `i`: `some` of the pushed
(name, match) pairs when the task's search call succeeds, `none` when
it fails or `i` is out of range. -/
def task_block (backend : SearchBackend) (query : String)
    (projects : List Project) (i : Nat) :
    Option (List (String × SearchResultRaw)) :=
  match projects[i]? with
  | none => none
  | some p =>
    match backend p.id query with
    | .ok rs => some (rs.map fun r => (p.name_with_namespace, r))
    | .error _ => none

/-- The stderr line contributed by task `i`: `some` of the printed
message when the task's search call fails, `none` otherwise. -/
def task_error_line (backend : SearchBackend) (query : String)
    (projects : List Project) (i : Nat) : Option String :=
  match projects[i]? with
  | none => none
  | some p =>
    match backend p.id query with
    | .ok _ => none
    | .error e =>
      some ("Error searching in project " ++ p.name_with_namespace ++ ": " ++ e)

/-- Modelled from the spec (§4.4 output ordering): the aggregate that
presents matches grouped by project in the order the projects appear
in the given (resolution-ordered) sequence. -/
def spec_resolution_order_results (backend : SearchBackend) (query : String)
    (projects : List Project) : List (String × SearchResultRaw) :=
  projects.flatMap fun p =>
    match backend p.id query with
    | .ok rs => rs.map fun r => (p.name_with_namespace, r)
    | .error _ => []

/-- Concrete fixture: a minimal project with the given id (all string
fields empty). -/
def mkP (i : Nat) : Project :=
  { id := i
    description := none
    name := ""
    name_with_namespace := ""
    path := ""
    path_with_namespace := ""
    created_at := ""
    web_url := ""
    last_activity_at := ""
    namespace_field :=
      { id := 0
        name := ""
        path := ""
        kind := ""
        full_path := ""
        parent_id := none
        web_url := "" } }

/-- Concrete fixture: the page sizes of the spec's pagination scenario
(pages of sizes 50, 50, 23, then empty). -/
def sizes123 : List Nat := [50, 50, 23]

/-- Concrete fixture: page `page` of the pagination scenario. -/
def c_pages (page : Nat) : List Project :=
  (List.range (sizes123.getD (page - 1) 0)).map mkP

/-- Concrete fixture: a listing backend serving pages of sizes
[50, 50, 23, 0, 0, ...]. -/
def cbackend : ListingBackend := fun req => .ok (c_pages req.page)

/-- Concrete fixture: a listing backend every page of which is the
same singleton page, so every page ends in the same project id as the
previous page's last entry. -/
def dupbackend : ListingBackend := fun _ => .ok [mkP 1]

/-- Concrete fixture: a listing backend whose very first page is
empty. -/
def emptyBackend : ListingBackend := fun _ => .ok []

/-- Concrete fixture: one search match. -/
def mA : SearchResultRaw :=
  { basename := ""
    data := "x"
    path := "f"
    filename := "f"
    id := none
    ref_field := "main"
    startline := 1
    project_id := 1 }

/-- Concrete fixture: project with id 1 named "a". -/
def pA : Project := { mkP 1 with name_with_namespace := "a" }

/-- Concrete fixture: project with id 2 named "b". -/
def pB : Project := { mkP 2 with name_with_namespace := "b" }

/-- Concrete fixture: a search backend returning one match for
project 1 and one (differently tagged) match for every other
project. -/
def sb2 : SearchBackend := fun pid _ =>
  if pid = 1 then .ok [mA] else .ok [{ mA with project_id := 2 }]

/-- Concrete fixture: a search backend that fails for project 1 and
succeeds with zero matches for every other project. -/
def sbFailA : SearchBackend := fun pid _ =>
  if pid = 1 then .error ("boom") else .ok []

/-- Concrete fixture: a search backend that fails for every project. -/
def sbFail : SearchBackend := fun _ _ => .error ("down")

/-- Concrete fixture: project "a/b" of the spec's resolver scenario. -/
def pab : Project := { mkP 10 with path_with_namespace := "a/b" }

/-- Concrete fixture: project "a/c" of the spec's resolver scenario. -/
def pac : Project := { mkP 11 with path_with_namespace := "a/c" }

/-- Concrete fixture: a listing backend whose first page is
[pab, pac] and whose second page is empty. -/
def wb : ListingBackend := fun req =>
  if req.page = 1 then .ok [pab, pac] else .ok []

/-- Concrete fixture: the requests `get_projects` issues against `wb`. -/
def wreqs : List ListRequest :=
  [{ archived := false, per_page := 50, page := 1 },
   { archived := false, per_page := 50, page := 2 }]

theorem runFold_results (backend : SearchBackend) (query : String)
    (projects : List Project) (order : List Nat) :
    ∀ st : RunState,
      (order.foldl
        (fun st i =>
          match projects[i]? with
          | some p => run_task backend query p st
          | none => st) st).results
      = st.results ++ (order.filterMap (task_block backend query projects)).flatten := by
  induction order with
  | nil => intro st; simp
  | cons i rest ih =>
    intro st
    cases hp : projects[i]? with
    | none =>
      rw [List.foldl_cons]
      simp only [hp]
      rw [ih]
      simp [task_block, hp]
    | some p =>
      rw [List.foldl_cons]
      simp only [hp]
      rw [ih]
      cases hb : backend p.id query with
      | ok rs => simp [run_task, task_block, hp, hb]
      | error e => simp [run_task, task_block, hp, hb]

theorem run_tasks_results (backend : SearchBackend) (query : String)
    (projects : List Project) (order : List Nat) :
    (run_tasks backend query projects order).results
      = (order.filterMap (task_block backend query projects)).flatten := by
  simpa [run_tasks] using runFold_results backend query projects order ⟨[], [], 0⟩

theorem runFold_errors (backend : SearchBackend) (query : String)
    (projects : List Project) (order : List Nat) :
    ∀ st : RunState,
      (order.foldl
        (fun st i =>
          match projects[i]? with
          | some p => run_task backend query p st
          | none => st) st).errors
      = st.errors ++ order.filterMap (task_error_line backend query projects) := by
  induction order with
  | nil => intro st; simp
  | cons i rest ih =>
    intro st
    cases hp : projects[i]? with
    | none =>
      rw [List.foldl_cons]
      simp only [hp]
      rw [ih]
      simp [task_error_line, hp]
    | some p =>
      rw [List.foldl_cons]
      simp only [hp]
      rw [ih]
      cases hb : backend p.id query with
      | ok rs => simp [run_task, task_error_line, hp, hb]
      | error e => simp [run_task, task_error_line, hp, hb]

theorem run_tasks_errors (backend : SearchBackend) (query : String)
    (projects : List Project) (order : List Nat) :
    (run_tasks backend query projects order).errors
      = order.filterMap (task_error_line backend query projects) := by
  simpa [run_tasks] using runFold_errors backend query projects order ⟨[], [], 0⟩

theorem runFold_completed (backend : SearchBackend) (query : String)
    (projects : List Project) (order : List Nat) :
    ∀ st : RunState,
      (order.foldl
        (fun st i =>
          match projects[i]? with
          | some p => run_task backend query p st
          | none => st) st).completed
      = st.completed + order.countP (fun i => (projects[i]?).isSome) := by
  induction order with
  | nil => intro st; simp
  | cons i rest ih =>
    intro st
    cases hp : projects[i]? with
    | none =>
      rw [List.foldl_cons]
      simp only [hp]
      rw [ih]
      simp [List.countP_cons, hp]
    | some p =>
      rw [List.foldl_cons]
      simp only [hp]
      rw [ih]
      cases hb : backend p.id query with
      | ok rs =>
        simp [run_task, List.countP_cons, hp, hb]
        omega
      | error e =>
        simp [run_task, List.countP_cons, hp, hb]
        omega

theorem run_tasks_completed (backend : SearchBackend) (query : String)
    (projects : List Project) (order : List Nat) :
    (run_tasks backend query projects order).completed
      = order.countP (fun i => (projects[i]?).isSome) := by
  simpa [run_tasks] using runFold_completed backend query projects order ⟨[], [], 0⟩

theorem filterMap_flatten_eq_spec_order (backend : SearchBackend)
    (query : String) (projects : List Project) (order : List Nat) :
    (order.filterMap (task_block backend query projects)).flatten
      = spec_resolution_order_results backend query
          (order.filterMap fun i => projects[i]?) := by
  induction order with
  | nil => simp [spec_resolution_order_results]
  | cons i rest ih =>
    cases hp : projects[i]? with
    | none => simp [task_block, hp, ih]
    | some p =>
      cases hb : backend p.id query with
      | ok rs =>
        simp [task_block, hp, hb, ih, spec_resolution_order_results]
      | error e =>
        simp [task_block, hp, hb, ih, spec_resolution_order_results]

theorem infix_of_mem_filterMap_flatten {γ : Type} (f : Nat → Option (List γ)) :
    ∀ (l : List Nat) (i : Nat) (b : List γ), i ∈ l → f i = some b →
      ∃ pre post, (l.filterMap f).flatten = pre ++ b ++ post := by
  intro l
  induction l with
  | nil => intro i b hi; exact absurd hi (List.not_mem_nil i)
  | cons j rest ih =>
    intro i b hi hb
    rcases List.mem_cons.mp hi with hij | hmem
    · subst hij
      refine ⟨[], (rest.filterMap f).flatten, ?_⟩
      simp [hb]
    · rcases ih i b hmem hb with ⟨pre, post, hpp⟩
      cases hj : f j with
      | none => exact ⟨pre, post, by simp [hj, hpp]⟩
      | some c =>
        refine ⟨c ++ pre, post, ?_⟩
        simp [hj, hpp]

/-- C1 counterexample: with projects resolved in the order [pA, pB] and
the valid completion order [1, 0], the shared results collection lists
project pB's match before project pA's, so the aggregate is not grouped
in project-resolution order as the claim states. -/
theorem run_search_not_resolution_order :
    ([1, 0] : List Nat).Perm (List.range ([pA, pB] : List Project).length) ∧
    (run_tasks sb2 ("q") [pA, pB] [1, 0]).results
      ≠ spec_resolution_order_results sb2 ("q") [pA, pB] := by
  constructor
  · decide
  · decide

/-- C1 (amended): for every completion-order permutation, the aggregate
presents matches grouped by project in task completion order — it equals
the resolution-order aggregate of the completion-order-permuted project
sequence — not necessarily in the order the projects were resolved. -/
theorem run_search_completion_order (backend : SearchBackend) (query : String)
    (projects : List Project) (order : List Nat)
    (h : order.Perm (List.range projects.length)) :
    (run_tasks backend query projects order).results
      = spec_resolution_order_results backend query
          (order.filterMap fun i => projects[i]?) := by
  rw [run_tasks_results, filterMap_flatten_eq_spec_order]

/-- Witness for the amended C1 at a concrete run. -/
theorem run_search_completion_order_witness :
    ([1, 0] : List Nat).Perm (List.range ([pA, pB] : List Project).length) ∧
    (run_tasks sb2 ("q") [pA, pB] [1, 0]).results
      = spec_resolution_order_results sb2 ("q")
          (([1, 0] : List Nat).filterMap fun i => ([pA, pB] : List Project)[i]?) :=
  ⟨by decide, run_search_completion_order sb2 ("q") [pA, pB] [1, 0] (by decide)⟩

/-- C10: in every completion-order interleaving, the shared results
collection is exactly the concatenation of the successful tasks' blocks
in completion order, and each successful project's matches (its
`task_block`, in server-returned order) occupy a contiguous segment of
it — one project's matches are never interleaved with another's. -/
theorem run_tasks_blocks_contiguous (backend : SearchBackend) (query : String)
    (projects : List Project) (order : List Nat)
    (h : order.Perm (List.range projects.length)) :
    (run_tasks backend query projects order).results
      = (order.filterMap (task_block backend query projects)).flatten
    ∧ ∀ i b, i ∈ order → task_block backend query projects i = some b →
        ∃ pre post,
          (run_tasks backend query projects order).results = pre ++ b ++ post := by
  refine ⟨run_tasks_results backend query projects order, ?_⟩
  intro i b hi hb
  rw [run_tasks_results]
  exact infix_of_mem_filterMap_flatten _ order i b hi hb

/-- Witness for C10 at a concrete run. -/
theorem run_tasks_blocks_contiguous_witness :
    ([1, 0] : List Nat).Perm (List.range ([pA, pB] : List Project).length) ∧
    (run_tasks sb2 ("q") [pA, pB] [1, 0]).results
      = (([1, 0] : List Nat).filterMap (task_block sb2 ("q") [pA, pB])).flatten ∧
    ∃ pre post, (run_tasks sb2 ("q") [pA, pB] [1, 0]).results
      = pre ++ [(("a"), mA)] ++ post :=
  ⟨by decide,
   (run_tasks_blocks_contiguous sb2 ("q") [pA, pB] [1, 0] (by decide)).1,
   (run_tasks_blocks_contiguous sb2 ("q") [pA, pB] [1, 0] (by decide)).2 0 [(("a"), mA)]
     (by decide) (by decide)⟩

theorem get_projects_loop_reqs_archived (backend : ListingBackend) (a : Bool)
    (per : Nat) :
    ∀ (fuel page : Nat) (acc : List Project) (reqs : List ListRequest)
      (res : Except String (List Project) × List ListRequest),
      get_projects_loop backend a per fuel page acc reqs = some res →
      (∀ r ∈ reqs, r.archived = a) → ∀ r ∈ res.2, r.archived = a := by
  intro fuel
  induction fuel with
  | zero =>
    intro page acc reqs res h
    simp [get_projects_loop] at h
  | succ fuel ih =>
    intro page acc reqs res h hreqs
    rw [get_projects_loop] at h
    cases hb : backend ⟨a, per, page⟩ with
    | err e =>
      rw [hb] at h
      simp only [Option.some.injEq] at h
      subst h
      intro r hr
      rcases List.mem_append.mp hr with hr1 | hr2
      · exact hreqs r hr1
      · simp at hr2
        subst hr2
        rfl
    | ok projects =>
      simp only [hb] at h
      by_cases hemp : projects.isEmpty
      · rw [if_pos hemp] at h
        simp only [Option.some.injEq] at h
        subst h
        intro r hr
        rcases List.mem_append.mp hr with hr1 | hr2
        · exact hreqs r hr1
        · simp at hr2
          subst hr2
          rfl
      · rw [if_neg hemp] at h
        refine ih (page + 1) (acc ++ projects)
          (reqs ++ [⟨a, per, page⟩]) res h ?_
        intro r hr
        rcases List.mem_append.mp hr with hr1 | hr2
        · exact hreqs r hr1
        · simp at hr2
          subst hr2
          rfl

theorem get_projects_reqs_archived (backend : ListingBackend) (a : Bool)
    (fuel : Nat) (res : Except String (List Project) × List ListRequest)
    (h : get_projects backend a fuel = some res) :
    ∀ r ∈ res.2, r.archived = a := by
  refine get_projects_loop_reqs_archived backend a 50 fuel 1 [] [] res h ?_
  intro r hr
  exact absurd hr (List.not_mem_nil r)

/-- C5: an identifier that parses as a positive 64-bit integer `n`
resolves to exactly one synthetic project with `id = n`, display fields
equal to the identifier string (the placeholder) or empty, and the
resolver issues no page request to the lister (empty request log,
independent of the listing backend and fuel). -/
theorem resolve_numeric_identifier (backend : ListingBackend) (fuel : Nat)
    (s : String) (n : Nat) (ap : Bool)
    (h1 : parse_u64 s = some n) (h2 : 0 < n) :
    resolve_projects backend fuel (some s) ap
      = some (.ok [synthetic_project s n], [])
    ∧ (synthetic_project s n).id = n
    ∧ (synthetic_project s n).description = none
    ∧ (synthetic_project s n).created_at = ""
    ∧ (synthetic_project s n).web_url = ""
    ∧ (synthetic_project s n).last_activity_at = ""
    ∧ (synthetic_project s n).name = s
    ∧ (synthetic_project s n).name_with_namespace = s
    ∧ (synthetic_project s n).path = s
    ∧ (synthetic_project s n).path_with_namespace = s := by
  refine ⟨?_, rfl, rfl, rfl, rfl, rfl, rfl, rfl, rfl, rfl⟩
  simp [resolve_projects, h1]

/-- Witness for C5 at the spec's concrete identifier "42". -/
theorem resolve_numeric_identifier_witness :
    parse_u64 ("42") = some 42 ∧ 0 < 42 ∧
    resolve_projects emptyBackend 0 (some ("42")) false
      = some (.ok [synthetic_project ("42") 42], []) :=
  ⟨by decide, by decide,
   (resolve_numeric_identifier emptyBackend 0 ("42") 42 false (by decide)
     (by decide)).1⟩

/-- C9: every string accepted by Rust's unsigned 64-bit parse — zero,
a leading plus sign and leading zeros included — takes the numeric
resolver path: one synthetic project whose `id` is the parsed value,
whose name/path display fields are the identifier string itself, with
no page request to the lister; positivity is never checked. -/
theorem resolve_numeric_u64_path (backend : ListingBackend) (fuel : Nat)
    (s : String) (n : Nat) (ap : Bool)
    (h : parse_u64 s = some n) :
    resolve_projects backend fuel (some s) ap
      = some (.ok [synthetic_project s n], [])
    ∧ (synthetic_project s n).id = n
    ∧ (synthetic_project s n).name = s
    ∧ (synthetic_project s n).name_with_namespace = s
    ∧ (synthetic_project s n).path = s
    ∧ (synthetic_project s n).path_with_namespace = s := by
  refine ⟨?_, rfl, rfl, rfl, rfl, rfl⟩
  simp [resolve_projects, h]

/-- Witness for C9 at the identifiers "0" and "+07". -/
theorem resolve_numeric_u64_path_witness :
    parse_u64 ("0") = some 0 ∧
    resolve_projects emptyBackend 0 (some ("0")) false
      = some (.ok [synthetic_project ("0") 0], []) ∧
    (synthetic_project ("0") 0).id = 0 ∧
    parse_u64 ("+07") = some 7 ∧
    resolve_projects emptyBackend 0 (some ("+07")) false
      = some (.ok [synthetic_project ("+07") 7], []) :=
  ⟨by decide,
   (resolve_numeric_u64_path emptyBackend 0 ("0") 0 false (by decide)).1,
   rfl,
   by decide,
   (resolve_numeric_u64_path emptyBackend 0 ("+07") 7 false (by decide)).1⟩

/-- C6: a non-numeric, non-empty identifier is resolved by listing the
unarchived projects (every page request carries `archived = false`) and
keeping exactly those whose `path_with_namespace` equals the identifier
character for character; zero matches yields `.ok` of the empty list,
not a resolver-level error. -/
theorem resolve_path_exact_match (backend : ListingBackend) (fuel : Nat)
    (s : String) (ap : Bool) (ps : List Project) (reqs : List ListRequest)
    (h1 : parse_u64 s = none) (h2 : s ≠ "")
    (h3 : get_projects backend false fuel = some (.ok ps, reqs)) :
    resolve_projects backend fuel (some s) ap
      = some (.ok (ps.filter fun p => p.path_with_namespace == s), reqs)
    ∧ ∀ r ∈ reqs, r.archived = false := by
  constructor
  · simp [resolve_projects, h1, h3]
  · exact fun r hr =>
      get_projects_reqs_archived backend false fuel (.ok ps, reqs) h3 r hr

/-- Witness for C6 at the spec's concrete scenario: projects "a/b" and
"a/c"; identifier "a/b" matches exactly the first, identifier "a/z"
yields the empty set without an error. -/
theorem resolve_path_exact_match_witness :
    parse_u64 ("a/b") = none ∧ ("a/b" : String) ≠ "" ∧
    get_projects wb false 2 = some (.ok [pab, pac], wreqs) ∧
    resolve_projects wb 2 (some ("a/b")) false = some (.ok [pab], wreqs) ∧
    resolve_projects wb 2 (some ("a/z")) false = some (.ok [], wreqs) ∧
    ∀ r ∈ wreqs, r.archived = false :=
  ⟨by decide, by decide, rfl,
   (resolve_path_exact_match wb 2 ("a/b") false [pab, pac] wreqs (by decide)
     (by decide) rfl).1,
   (resolve_path_exact_match wb 2 ("a/z") false [pab, pac] wreqs (by decide)
     (by decide) rfl).1,
   (resolve_path_exact_match wb 2 ("a/b") false [pab, pac] wreqs (by decide)
     (by decide) rfl).2⟩

/-- C7: whenever project resolution yields the empty set — whatever
path produced it — the search command fails with the terminal error
message, and the outcome does not depend on the search backend or on
any completion order: no search task is ever launched. -/
theorem handle_search_empty_resolved_set (lister : ListingBackend)
    (fuel : Nat) (query : String) (project : Option String) (ap : Bool)
    (reqs : List ListRequest)
    (h : resolve_projects lister fuel project ap = some (.ok [], reqs)) :
    ∀ (searcher : SearchBackend) (order : List Nat),
      handle_search_command lister searcher fuel query project ap order
        = some (.error ("No projects found to search in")) := by
  intro searcher order
  simp [handle_search_command, h]

/-- Witness for C7: an identifier with no exact path match over an
empty listing resolves to the empty set and the command fails. -/
theorem handle_search_empty_resolved_set_witness :
    resolve_projects emptyBackend 1 (some ("x/y")) false
      = some (.ok [], [{ archived := false, per_page := 50, page := 1 }]) ∧
    handle_search_command emptyBackend sbFail 1 ("q") (some ("x/y")) false []
      = some (.error ("No projects found to search in")) :=
  ⟨rfl,
   handle_search_empty_resolved_set emptyBackend 1 ("q") (some ("x/y")) false
     [{ archived := false, per_page := 50, page := 1 }] rfl sbFail []⟩

/-- C8: once resolution succeeds with a non-empty project set, the
search command returns `.ok` (process exit status zero) for every
search backend and completion order — per-task failures only add lines
to the error stream and never change the overall status. -/
theorem handle_search_degraded_success (lister : ListingBackend)
    (searcher : SearchBackend) (fuel : Nat) (query : String)
    (project : Option String) (ap : Bool) (ps : List Project)
    (reqs : List ListRequest) (order : List Nat)
    (h : resolve_projects lister fuel project ap = some (.ok ps, reqs))
    (hne : ps ≠ []) :
    handle_search_command lister searcher fuel query project ap order
      = some (.ok (run_tasks searcher query ps order)) := by
  simp [handle_search_command, h, hne]

/-- Witness for C8: one resolved project whose search task fails; the
command still returns `.ok` while the failure is on the error stream. -/
theorem handle_search_degraded_success_witness :
    resolve_projects emptyBackend 0 (some ("5")) false
      = some (.ok [synthetic_project ("5") 5], []) ∧
    handle_search_command emptyBackend sbFail 0 ("q") (some ("5")) false [0]
      = some (.ok (run_tasks sbFail ("q") [synthetic_project ("5") 5] [0])) ∧
    (run_tasks sbFail ("q") [synthetic_project ("5") 5] [0]).results = [] ∧
    (run_tasks sbFail ("q") [synthetic_project ("5") 5] [0]).errors
      = ["Error searching in project 5: down"] :=
  ⟨rfl,
   handle_search_degraded_success emptyBackend sbFail 0 ("q") (some ("5"))
     false [synthetic_project ("5") 5] [] [0] rfl (by decide),
   by decide, by decide⟩

theorem get_projects_loop_diverges (backend : ListingBackend) (a : Bool)
    (per : Nat) (h : ∀ req, ∃ ps, backend req = .ok ps ∧ ps ≠ []) :
    ∀ (fuel page : Nat) (acc : List Project) (reqs : List ListRequest),
      get_projects_loop backend a per fuel page acc reqs = none := by
  intro fuel
  induction fuel with
  | zero => intro page acc reqs; rfl
  | succ fuel ih =>
    intro page acc reqs
    rw [get_projects_loop]
    rcases h ⟨a, per, page⟩ with ⟨ps, hb, hne⟩
    simp only [hb]
    rw [if_neg (fun hcontra => hne (List.isEmpty_iff.mp hcontra))]
    exact ih (page + 1) (acc ++ ps) (reqs ++ [⟨a, per, page⟩])

/-- C3 (amended): the lister performs no duplicate-page detection.
Against a backend whose every page is the same singleton page — so
every page ends in the same project id as the previous page's last
entry — `get_projects` neither fails nor returns: for every fuel bound
it is still looping (it keeps requesting further pages until an empty
page arrives, which never happens). -/
theorem get_projects_dup_pages_loops (backend : ListingBackend)
    (p : Project) (a : Bool) (h : ∀ req, backend req = .ok [p]) :
    ∀ fuel, get_projects backend a fuel = none := by
  intro fuel
  refine get_projects_loop_diverges backend a 50 ?_ fuel 1 [] []
  intro req
  exact ⟨[p], h req, by simp⟩

/-- C3 counterexample: against `dupbackend` (page 2 returns the same
singleton set, ending in the same project id, as page 1) the lister
does not abort with an error: after two page requests, and still after
ten, it is looping (`none`), not failing. -/
theorem get_projects_no_dup_detection :
    get_projects dupbackend false 2 = none ∧
    get_projects dupbackend false 10 = none := ⟨rfl, rfl⟩

/-- Witness for the amended C3 at the concrete duplicating backend. -/
theorem get_projects_dup_pages_loops_witness :
    (∀ req, dupbackend req = .ok [mkP 1]) ∧
    get_projects dupbackend false 7 = none :=
  ⟨fun _ => rfl,
   get_projects_dup_pages_loops dupbackend (mkP 1) false (fun _ => rfl) 7⟩

theorem get_projects_loop_pages (backend : ListingBackend) (a : Bool)
    (f : Nat → List Project) (hb : ∀ pg, backend ⟨a, 50, pg⟩ = .ok (f pg)) :
    ∀ (m page fuel : Nat) (acc : List Project) (reqs : List ListRequest),
      (∀ t, t < m → f (page + t) ≠ []) →
      f (page + m) = [] →
      m + 1 ≤ fuel →
      get_projects_loop backend a 50 fuel page acc reqs
        = some (.ok (acc ++ ((List.range m).map (fun t => f (page + t))).flatten),
            reqs ++ (List.range (m + 1)).map (fun t => ⟨a, 50, page + t⟩)) := by
  intro m
  induction m with
  | zero =>
    intro page fuel acc reqs hne hend hfuel
    obtain ⟨fuel', rfl⟩ : ∃ fuel', fuel = fuel' + 1 := ⟨fuel - 1, by omega⟩
    rw [get_projects_loop]
    simp only [hb page]
    have hpage : f page = [] := by simpa using hend
    rw [if_pos (by simp [hpage])]
    simp [List.range_succ]
  | succ m ih =>
    intro page fuel acc reqs hne hend hfuel
    obtain ⟨fuel', rfl⟩ : ∃ fuel', fuel = fuel' + 1 := ⟨fuel - 1, by omega⟩
    rw [get_projects_loop]
    simp only [hb page]
    have hpage : f page ≠ [] := by simpa using hne 0 (by omega)
    rw [if_neg (fun hcontra => hpage (List.isEmpty_iff.mp hcontra))]
    have hne' : ∀ t, t < m → f (page + 1 + t) ≠ [] := by
      intro t ht
      have := hne (t + 1) (by omega)
      simpa [show page + (t + 1) = page + 1 + t by omega] using this
    have hend' : f (page + 1 + m) = [] := by
      simpa [show page + (m + 1) = page + 1 + m by omega] using hend
    have hih := ih (page + 1) fuel' (acc ++ f page)
      (reqs ++ [ListRequest.mk a 50 page]) hne' hend' (by omega)
    rw [hih]
    have h1 : ∀ t, page + 1 + t = page + (t + 1) := fun t => by omega
    simp [List.range_succ_eq_map, List.map_map, Function.comp_def, h1,
      Nat.succ_eq_add_one]

/-- C4: for a listing backend whose pages at size 50 are non-empty up
to the first empty page (pages 1..k non-empty, page k+1 empty),
`get_projects` requests pages starting at 1 with page size 50, stops
at the first empty page and returns the concatenation of all pages;
it issues exactly k + 1 page requests (pages 1, 2, ..., k + 1). -/
theorem get_projects_pagination (backend : ListingBackend) (a : Bool)
    (f : Nat → List Project) (k fuel : Nat)
    (hb : ∀ pg, backend ⟨a, 50, pg⟩ = .ok (f pg))
    (hne : ∀ t, 1 ≤ t → t ≤ k → f t ≠ [])
    (hend : f (k + 1) = [])
    (hfuel : k + 1 ≤ fuel) :
    get_projects backend a fuel
      = some (.ok ((List.range k).map (fun t => f (1 + t))).flatten,
          (List.range (k + 1)).map (fun t => ⟨a, 50, 1 + t⟩))
    ∧ ((List.range (k + 1)).map
        (fun t => (⟨a, 50, 1 + t⟩ : ListRequest))).length = k + 1 := by
  constructor
  · have hne' : ∀ t, t < k → f (1 + t) ≠ [] := fun t ht =>
      hne (1 + t) (by omega) (by omega)
    have hend' : f (1 + k) = [] := by
      simpa [show 1 + k = k + 1 by omega] using hend
    have := get_projects_loop_pages backend a f hb k 1 fuel [] [] hne' hend'
      hfuel
    simpa [get_projects] using this
  · simp

/-- Witness for C4 at the spec's scenario of page sizes [50, 50, 23, 0]:
exactly 123 projects are returned and exactly 4 page requests are
made, pages 1..4 each with page size 50. -/
theorem get_projects_pagination_witness :
    get_projects cbackend false 4
      = some (.ok ((List.range 3).map (fun t => c_pages (1 + t))).flatten,
          (List.range 4).map (fun t => ⟨false, 50, 1 + t⟩))
    ∧ (((List.range 3).map (fun t => c_pages (1 + t))).flatten).length = 123
    ∧ ((List.range 4).map
        (fun t => (⟨false, 50, 1 + t⟩ : ListRequest))).length = 4 :=
  ⟨(get_projects_pagination cbackend false c_pages 3 4 (fun _ => rfl)
      (by intro t h1 h2; interval_cases t <;> decide) rfl (by omega)).1,
   by decide, by decide⟩

/-- C2 counterexample: two resolved projects where the task of project
pA fails and the task of project pB succeeds with zero matches.  The
claim demands the aggregate hold N = 2 per-project entries — one
success outcome for pB and one error entry for pA — but the shared
results collection ends up empty: the failure is only printed to the
error stream and a zero-match success contributes no entry, so no
entry keyed by either project exists. -/
theorem run_tasks_no_error_entries :
    ([0, 1] : List Nat).Perm (List.range ([pA, pB] : List Project).length) ∧
    sbFailA pA.id ("q") = .error ("boom") ∧
    sbFailA pB.id ("q") = .ok [] ∧
    (run_tasks sbFailA ("q") [pA, pB] [0, 1]).results = [] ∧
    (run_tasks sbFailA ("q") [pA, pB] [0, 1]).errors
      = ["Error searching in project a: boom"] :=
  ⟨by decide, rfl, rfl, by decide, by decide⟩

theorem filterMap_eq_singleton {β : Type} (f : Nat → Option β) (k : Nat)
    (v : β) : ∀ l : List Nat, f k = some v →
    (∀ x ∈ l, x ≠ k → f x = none) → l.count k = 1 →
    l.filterMap f = [v] := by
  intro l
  induction l with
  | nil => intro h1 h2 h3; simp at h3
  | cons a rest ih =>
    intro h1 h2 h3
    by_cases hak : a = k
    · subst hak
      have hc : rest.count a = 0 := by
        simp [List.count_cons] at h3
        omega
      have hnone : ∀ x ∈ rest, f x = none := by
        intro x hx
        by_cases hxa : x = a
        · subst hxa
          exact absurd (List.count_pos_iff.mpr hx) (by omega)
        · exact h2 x (List.mem_cons_of_mem _ hx) hxa
      simp [List.filterMap_cons, h1, List.filterMap_eq_nil_iff.mpr hnone]
    · have hfa : f a = none := h2 a (List.mem_cons_self a rest) hak
      have hka : k ≠ a := fun h => hak h.symm
      have h3' : rest.count k = 1 := by
        simp [List.count_cons, hka] at h3
        exact h3
      simp only [List.filterMap_cons, hfa]
      exact ih h1 (fun x hx hxk => h2 x (List.mem_cons_of_mem _ hx) hxk) h3'

/-- C2 (amended): for N resolved projects where exactly the task of
project k fails and every other task succeeds, after any completion
order all N tasks complete, the error stream holds exactly one line —
the one naming project k — each of the other N−1 projects contributes
a success block (`task_block` is `some`), and the shared results
collection is exactly the concatenation of those success blocks in
completion order; the failing project is keyed only on the error
stream, never in the results collection. -/
theorem run_tasks_isolation (backend : SearchBackend) (query : String)
    (projects : List Project) (order : List Nat) (k : Nat) (pk : Project)
    (e : String)
    (horder : order.Perm (List.range projects.length))
    (hk : projects[k]? = some pk)
    (hfail : backend pk.id query = .error e)
    (hsucc : ∀ i pi, i ≠ k → projects[i]? = some pi →
        ∃ rs, backend pi.id query = .ok rs) :
    (run_tasks backend query projects order).errors
      = ["Error searching in project " ++ pk.name_with_namespace ++ ": " ++ e]
    ∧ (run_tasks backend query projects order).completed = projects.length
    ∧ (∀ i pi, i ≠ k → projects[i]? = some pi →
        (task_block backend query projects i).isSome = true)
    ∧ (run_tasks backend query projects order).results
        = (order.filterMap (task_block backend query projects)).flatten := by
  have hkN : k < projects.length := by
    rcases List.getElem?_eq_some_iff.mp hk with ⟨h1, _⟩
    exact h1
  refine ⟨?_, ?_, ?_, run_tasks_results backend query projects order⟩
  · rw [run_tasks_errors]
    refine filterMap_eq_singleton _ k _ order ?_ ?_ ?_
    · simp [task_error_line, hk, hfail]
    · intro x hx hxk
      have hxN : x < projects.length := by
        have hmem : x ∈ List.range projects.length := horder.mem_iff.mp hx
        simpa using hmem
      obtain ⟨px, hpx⟩ : ∃ px, projects[x]? = some px :=
        ⟨projects.get ⟨x, hxN⟩, by simp [List.getElem?_eq_getElem hxN]⟩
      rcases hsucc x px hxk hpx with ⟨rs, hrs⟩
      simp [task_error_line, hpx, hrs]
    · rw [horder.count_eq]
      exact List.count_eq_one_of_mem (List.nodup_range _) (by simpa using hkN)
  · rw [run_tasks_completed]
    have hall : ∀ i ∈ order, ((projects[i]?).isSome : Bool) = true := by
      intro i hi
      have hiN : i < projects.length := by
        have hmem : i ∈ List.range projects.length := horder.mem_iff.mp hi
        simpa using hmem
      rw [List.getElem?_eq_getElem hiN]
      rfl
    rw [List.countP_eq_length.mpr hall, horder.length_eq, List.length_range]
  · intro i pi hik hpi
    rcases hsucc i pi hik hpi with ⟨rs, hrs⟩
    simp [task_block, hpi, hrs]

/-- Witness for the amended C2: projects [pA, pB] with pA's task
failing, completion order [1, 0]. -/
theorem run_tasks_isolation_witness :
    ([1, 0] : List Nat).Perm (List.range ([pA, pB] : List Project).length) ∧
    ([pA, pB] : List Project)[0]? = some pA ∧
    sbFailA pA.id ("q") = .error ("boom") ∧
    (run_tasks sbFailA ("q") [pA, pB] [1, 0]).errors
      = ["Error searching in project " ++ pA.name_with_namespace ++ ": "
          ++ "boom"] ∧
    (run_tasks sbFailA ("q") [pA, pB] [1, 0]).completed = 2 :=
  ⟨by decide, by decide, rfl,
   (run_tasks_isolation sbFailA ("q") [pA, pB] [1, 0] 0 pA ("boom")
     (by decide) (by decide) rfl
     (by
       intro i pi hik hpi
       match i, hpi with
       | 0, hpi => exact absurd rfl hik
       | 1, hpi =>
         simp at hpi
         subst hpi
         exact ⟨[], rfl⟩)).1,
   (run_tasks_isolation sbFailA ("q") [pA, pB] [1, 0] 0 pA ("boom")
     (by decide) (by decide) rfl
     (by
       intro i pi hik hpi
       match i, hpi with
       | 0, hpi => exact absurd rfl hik
       | 1, hpi =>
         simp at hpi
         subst hpi
         exact ⟨[], rfl⟩)).2.1⟩
